import Mathlib

/-!
Verification development for the SVM toolchain (assembler and 16-bit CPU runtime).

The definitions below are shallow embeddings of the Go sources:
  * `devices/fffe/cpu/memory.go`      — memory bank, registers, RST flags, `next8`/`next16`
  * `devices/fffe/cpu/instruction.go` — instruction and operand decoder (the generation
                                        carrying wide/signed bits in the opcode byte)
  * `devices/fffe/cpu/cpu.go`         — `CPU.Step` instruction dispatch
  * the part of the cpu package with the device interrupt queue
    (`CPU.checkIntQueue`, `CPU.queueInterrupt`, `CPU.push`, `CPU.pop`)
  * `arch/opcode.go`, `arch/types.go` — opcode table, arity, type descriptors
  * `asm/eval/{arith,error,postfix}.go` — compile-time expression evaluator
  * `asm/assembler.go`                — instruction encoder
  * `asm/build.go`                    — `encodedLen`, `encodeDataDirective`, `writeData`
  * `asm/ar/{archive,debug,io}.go`    — archive save/load framing
  * `devices/device.go`, `devices/id.go` — device table

Machine integers are modelled as `Int`/`Nat` with explicit reductions modulo powers of
two.  Go's arithmetic right shift by a power of two equals floor division, which for a
positive divisor is `Int`'s `/` (euclidean division). Fallible code returns an `Out`
value (`eof` for `io.EOF`, `err` for Go errors, `panicked` for run-time panics).
-/

/-- Go conversion `int(int8(v))`: truncate to the low byte, sign-extended. -/
def goInt8 (v : Int) : Int :=
  let r := v % 256
  if r < 128 then r else r - 256

/-- Go conversion `int(uint8(v))`: truncate to the low byte, zero-extended. -/
def goUint8 (v : Int) : Int := v % 256

/-- Go conversion `int(int16(v))`: truncate to 16 bits, sign-extended. -/
def goInt16 (v : Int) : Int :=
  let r := v % 65536
  if r < 32768 then r else r - 65536

/-- Go conversion `int(uint16(v))`: truncate to 16 bits, zero-extended. -/
def goUint16 (v : Int) : Int := v % 65536

/-- Go conversion `uint(v)` (64-bit), as a natural number. -/
def goUint64 (v : Int) : Nat := (v % 18446744073709551616).toNat

/-- Reinterpret a 64-bit bit pattern as a signed Go `int`. -/
def goInt64OfBits (u : Nat) : Int :=
  if u < 9223372036854775808 then (u : Int) else (u : Int) - 18446744073709551616

/-- Go conversion `int64(v)` / wrap-around of arithmetic on `int`. -/
def goInt64 (v : Int) : Int := goInt64OfBits (goUint64 v)

/-- Go conversion `byte(v)`: the low byte, as a natural number. -/
def goByte (v : Int) : Nat := (v % 256).toNat

/-- Go `a & b` on `int` (two's-complement bitwise and). -/
def goLand (a b : Int) : Int := goInt64OfBits (Nat.land (goUint64 a) (goUint64 b))

/-- Go `a | b` on `int` (two's-complement bitwise or). -/
def goLor (a b : Int) : Int := goInt64OfBits (Nat.lor (goUint64 a) (goUint64 b))

/-- Go `a ^ b` on `int` (two's-complement bitwise xor). -/
def goLxor (a b : Int) : Int := goInt64OfBits (Nat.xor (goUint64 a) (goUint64 b))

/-- Go `a << b` for `b : uint`; counts of 64 or more yield zero, the result wraps. -/
def goShl (a : Int) (cnt : Nat) : Int :=
  if cnt ≥ 64 then 0 else goInt64 (a * (2 ^ cnt : Nat))

/-- Go `a >> b` (arithmetic) for `b : uint`; large counts yield the sign. -/
def goShr (a : Int) (cnt : Nat) : Int :=
  if cnt ≥ 64 then (if goInt64 a < 0 then -1 else 0) else goInt64 a / (2 ^ cnt : Nat)

/-! ## Memory bank (`devices/fffe/cpu/memory.go`) -/

def UserMemoryCapacity : Nat := 65536

def RegisterCapacity : Nat := 8 * 2

def MemoryCapacity : Nat := UserMemoryCapacity + RegisterCapacity

def R0 : Nat := UserMemoryCapacity
def R1 : Nat := R0 + 2
def R2 : Nat := R1 + 2
def R3 : Nat := R2 + 2
def RSP : Nat := R3 + 2
def RIP : Nat := RSP + 2
def RIA : Nat := RIP + 2
def RST : Nat := RIA + 2

/-- The memory bank `Memory []byte`, as a byte-valued function on addresses.
Reads reduce modulo 256, reflecting the `[]byte` element type. -/
def Mem : Type := Nat → Nat

/-- Point update of one memory cell. -/
def memSet (m : Mem) (a v : Nat) : Mem := fun x => if x = a then v else m x

/-- The all-zero memory produced by `Startup`. -/
def memZero : Mem := fun _ => 0

/-- Source `Memory.U8`: the unsigned 8-bit value at the given address (a Go `int`). -/
def U8 (m : Mem) (addr : Nat) : Int := ((m addr % 256 : Nat) : Int)

/-- Source `Memory.I8`: the signed 8-bit value at the given address. -/
def I8 (m : Mem) (addr : Nat) : Int := goInt8 ((m addr % 256 : Nat) : Int)

/-- Source `Memory.U16`: big-endian unsigned 16-bit read — high byte at `addr`. -/
def U16 (m : Mem) (addr : Nat) : Int :=
  ((m addr % 256 : Nat) : Int) * 256 + ((m (addr + 1) % 256 : Nat) : Int)

/-- Source `Memory.I16`: big-endian signed 16-bit read. -/
def I16 (m : Mem) (addr : Nat) : Int := goInt16 (U16 m addr)

/-- Source `Memory.SetU8`: `m[addr] = byte(value)`. -/
def SetU8 (m : Mem) (addr : Nat) (v : Int) : Mem := memSet m addr (goByte v)

/-- Source `Memory.SetI8`: `m[addr] = byte(int8(value))` (the same byte as `SetU8`). -/
def SetI8 (m : Mem) (addr : Nat) (v : Int) : Mem := memSet m addr (goByte (goInt8 v))

/-- Source `Memory.SetU16`: `m[addr] = byte(value >> 8); m[addr+1] = byte(value)`
(the arithmetic shift is floor division by 256). -/
def SetU16 (m : Mem) (addr : Nat) (v : Int) : Mem :=
  memSet (memSet m addr (goByte (v / 256))) (addr + 1) (goByte v)

/-- Source `Memory.SetI16`: `m[addr] = byte(int16(value) >> 8); m[addr+1] = byte(int16(value))`. -/
def SetI16 (m : Mem) (addr : Nat) (v : Int) : Mem :=
  memSet (memSet m addr (goByte (goInt16 v / 256))) (addr + 1) (goByte (goInt16 v))

/-- Source `Memory.rst`: test the given RST bit mask. -/
def rstGet (m : Mem) (flag : Nat) : Bool := Nat.land (m RST % 256) flag = flag

/-- Source `Memory.setRST`: set (`|=`) or clear (`&^=`) the given RST bit mask. -/
def rstPut (m : Mem) (flag : Nat) (v : Bool) : Mem :=
  if v then memSet m RST (Nat.lor (m RST % 256) flag)
  else memSet m RST (Nat.land (m RST % 256) (255 ^^^ flag))

def RSTCompare (m : Mem) : Bool := rstGet m 1
def SetRSTCompare (m : Mem) (v : Bool) : Mem := rstPut m 1 v

def RSTOverflow (m : Mem) : Bool := rstGet m 2
def SetRSTOverflow (m : Mem) (v : Bool) : Mem := rstPut m 2 v

def RSTDivideByZero (m : Mem) : Bool := rstGet m 4
def SetRSTDivideByZero (m : Mem) (v : Bool) : Mem := rstPut m 4 v

/-- Source `Memory.next8`: read the byte at `RIP` and advance `RIP`; the result is
`none` (io.EOF) when `RIP` lies outside user memory. -/
def next8 (m : Mem) : Option Nat × Mem :=
  let rip := U16 m RIP
  let m' := SetU16 m RIP (rip + 1)
  if rip < (UserMemoryCapacity : Int) then (some (m' rip.toNat % 256), m') else (none, m')

/-- Source `Memory.next16`: read the big-endian 16-bit value at `RIP` and advance `RIP` by 2. -/
def next16 (m : Mem) : Option Int × Mem :=
  let rip := U16 m RIP
  let m' := SetU16 m RIP (rip + 2)
  if rip < (UserMemoryCapacity : Int) - 1 then (some (U16 m' rip.toNat), m') else (none, m')

/-! ## Opcode table (`arch/opcode.go`) -/

def NOP : Nat := 0
def HALT : Nat := 1
def MOV : Nat := 2
def PUSH : Nat := 3
def POP : Nat := 4
def RNG : Nat := 5
def SEED : Nat := 6
def ADD : Nat := 7
def SUB : Nat := 8
def MUL : Nat := 9
def DIV : Nat := 10
def MOD : Nat := 11
def SHL : Nat := 12
def SHR : Nat := 13
def ANDOP : Nat := 14
def OROP : Nat := 15
def XOROP : Nat := 16
def ABS : Nat := 17
def POW : Nat := 18
def CEQ : Nat := 19
def CNE : Nat := 20
def CGT : Nat := 21
def CGE : Nat := 22
def CLT : Nat := 23
def CLE : Nat := 24
def JMP : Nat := 25
def JEZ : Nat := 26
def JNZ : Nat := 27
def CALL : Nat := 28
def CLEZ : Nat := 29
def CLNZ : Nat := 30
def RET : Nat := 31
def HWA : Nat := 32
def INTOP : Nat := 33
def WAIT : Nat := 34

/-- Lower-casing of an ASCII character (for the case-insensitive name tables). -/
def lowChar (c : Char) : Char :=
  if 'A' ≤ c ∧ c ≤ 'Z' then Char.ofNat (c.toNat + 32) else c

/-- Case-normalised string, standing in for Go's `strings.ToLower`. -/
def lowStr (s : String) : String := String.mk (s.data.map lowChar)

/-- Source `strings.EqualFold` for the ASCII names the assembler handles. -/
def eqFold (a b : String) : Bool := lowStr a = lowStr b

/-- Source `arch.Opcode`: instruction name (case-insensitive) to opcode. -/
def Opcode (name : String) : Option Nat :=
  match lowStr name with
  | "nop" => some NOP | "halt" => some HALT | "mov" => some MOV
  | "push" => some PUSH | "pop" => some POP | "rng" => some RNG
  | "seed" => some SEED | "add" => some ADD | "sub" => some SUB
  | "mul" => some MUL | "div" => some DIV | "mod" => some MOD
  | "shl" => some SHL | "shr" => some SHR | "and" => some ANDOP
  | "or" => some OROP | "xor" => some XOROP | "abs" => some ABS
  | "pow" => some POW | "ceq" => some CEQ | "cne" => some CNE
  | "cgt" => some CGT | "cge" => some CGE | "clt" => some CLT
  | "cle" => some CLE | "jmp" => some JMP | "jez" => some JEZ
  | "jnz" => some JNZ | "call" => some CALL | "clez" => some CLEZ
  | "clnz" => some CLNZ | "ret" => some RET | "hwa" => some HWA
  | "int" => some INTOP | "wait" => some WAIT
  | _ => none

/-- Source `arch.Argc`: operand count of an opcode, `-1` when unknown. -/
def Argc (opcode : Nat) : Int :=
  if opcode = ADD ∨ opcode = SUB ∨ opcode = MUL ∨ opcode = DIV ∨ opcode = MOD ∨
     opcode = SHL ∨ opcode = SHR ∨ opcode = ANDOP ∨ opcode = OROP ∨ opcode = XOROP ∨
     opcode = HWA ∨ opcode = POW ∨ opcode = RNG then 3
  else if opcode = MOV ∨ opcode = CEQ ∨ opcode = CNE ∨ opcode = CGT ∨ opcode = CGE ∨
     opcode = CLT ∨ opcode = CLE ∨ opcode = ABS then 2
  else if opcode = INTOP ∨ opcode = JMP ∨ opcode = JEZ ∨ opcode = JNZ ∨ opcode = CALL ∨
     opcode = CLEZ ∨ opcode = CLNZ ∨ opcode = PUSH ∨ opcode = POP ∨ opcode = SEED ∨
     opcode = WAIT then 1
  else if opcode = NOP ∨ opcode = HALT ∨ opcode = RET then 0
  else -1

/-! ## Instruction decoder (`devices/fffe/cpu/instruction.go`) -/

/-- Outcome of a fallible CPU operation. `ok`/`eof`/`err` carry the state reached
so far (the Go CPU keeps its memory across returns); `panicked` models a Go
run-time panic (out-of-range slice index, `rand.Intn` with a non-positive bound),
which crashes the program and leaves nothing observable. -/
inductive Out (α : Type) where
  | ok (a : α)
  | eof (a : α)
  | err (msg : String) (a : α)
  | panicked
deriving Repr

/-- Sequencing on `Out` for steps sharing one state type. -/
def obind {α β : Type} (x : Out α) (f : α → Out β) (g : α → β) : Out β :=
  match x with
  | .ok a => f a
  | .eof a => .eof (g a)
  | .err e a => .err e (g a)
  | .panicked => .panicked

/-- Decoded operand (`Operand` in instruction.go). -/
structure Operand where
  Address : Int
  Value : Int
  Mode : Nat
deriving Repr, DecidableEq

/-- Decoded instruction (`Instruction` in instruction.go). `Args` is the
three-element operand array; entries beyond the arity keep their stale contents. -/
structure Instr where
  IP : Int
  Opcode : Nat
  arg0 : Operand
  arg1 : Operand
  arg2 : Operand
  Wide : Bool
  Signed : Bool
deriving Repr, DecidableEq

/-- Typed memory read used by the operand decoder, with the slice bounds check of
the Go indexing (an out-of-range register index panics). -/
def readTyped (m : Mem) (addr : Nat) (isWide signed : Bool) : Out Int :=
  if isWide then
    if addr + 1 < MemoryCapacity then
      .ok (if signed then I16 m addr else U16 m addr)
    else .panicked
  else
    if addr < MemoryCapacity then
      .ok (if signed then I8 m addr else U8 m addr)
    else .panicked

/-- Source `Operand.Decode`: one attribute byte, then mode-dependent decoding.
The decoder reuses the operand struct of the previous step, so a mode without a
switch case (mode 3) leaves address and value stale. -/
def decodeOperand (m : Mem) (isWide signed : Bool) (prev : Operand) : Out (Operand × Mem) :=
  match next8 m with
  | (none, m1) => .eof (prev, m1)
  | (some b, m1) =>
    let mode := b / 64
    if mode = 0 then
      -- Constant: 16-bit literal, sign- or zero-extended per wide/signed.
      match next16 m1 with
      | (none, m2) => .eof ({ prev with Mode := mode }, m2)
      | (some v, m2) =>
        let value :=
          if signed then (if isWide then goInt16 v else goInt8 v)
          else (if isWide then goUint16 v else goUint8 v)
        .ok ({ Address := value, Value := value, Mode := mode }, m2)
    else if mode = 1 then
      -- Address: 16-bit literal address, value read from memory.
      match next16 m1 with
      | (none, m2) => .eof ({ prev with Mode := mode }, m2)
      | (some a, m2) =>
        match readTyped m2 a.toNat isWide signed with
        | .ok v => .ok ({ Address := a, Value := v, Mode := mode }, m2)
        | _ => .panicked
    else if mode = 2 then
      -- Register: address inside the register window.
      let addr := (b % 64) * 2 + UserMemoryCapacity
      match readTyped m1 addr isWide signed with
      | .ok v => .ok ({ Address := (addr : Int), Value := v, Mode := mode }, m1)
      | _ => .panicked
    else
      .ok ({ prev with Mode := mode }, m1)

/-- Decode the first `n` of the three operand slots (`for j := 0; j < argc; j++`). -/
def decodeArgs (m : Mem) (isWide signed : Bool) (n : Nat) (a0 a1 a2 : Operand) :
    Out ((Operand × Operand × Operand) × Mem) :=
  if n = 0 then .ok ((a0, a1, a2), m) else
  match decodeOperand m isWide signed a0 with
  | .eof (a0', m1) => .eof ((a0', a1, a2), m1)
  | .err e (a0', m1) => .err e ((a0', a1, a2), m1)
  | .panicked => .panicked
  | .ok (a0', m1) =>
    if n = 1 then .ok ((a0', a1, a2), m1) else
    match decodeOperand m1 isWide signed a1 with
    | .eof (a1', m2) => .eof ((a0', a1', a2), m2)
    | .err e (a1', m2) => .err e ((a0', a1', a2), m2)
    | .panicked => .panicked
    | .ok (a1', m2) =>
      if n = 2 then .ok ((a0', a1', a2), m2) else
      match decodeOperand m2 isWide signed a2 with
      | .eof (a2', m3) => .eof ((a0', a1', a2'), m3)
      | .err e (a2', m3) => .err e ((a0', a1', a2'), m3)
      | .panicked => .panicked
      | .ok (a2', m3) => .ok ((a0', a1', a2'), m3)

/-- Source `Instruction.Decode`: opcode byte (`opcode = b & 0x3f`, wide bit 7, signed =
bit 6 clear), arity lookup, then the operand loop. -/
def decodeInstruction (m : Mem) (prev : Instr) : Out (Instr × Mem) :=
  let ip := U16 m RIP
  match next8 m with
  | (none, m1) => .eof ({ prev with IP := ip }, m1)
  | (some b, m1) =>
    let opcode := b % 64
    let isWide := b / 128 = 1
    let signed := (b / 64) % 2 = 0
    let argc := Argc opcode
    if argc < 0 then
      .err ("unknown opcode") ({ prev with IP := ip, Opcode := opcode, Wide := isWide, Signed := signed }, m1)
    else
      match decodeArgs m1 isWide signed argc.toNat prev.arg0 prev.arg1 prev.arg2 with
      | .ok ((a0, a1, a2), m2) =>
        .ok ({ IP := ip, Opcode := opcode, arg0 := a0, arg1 := a1, arg2 := a2,
               Wide := isWide, Signed := signed }, m2)
      | .eof ((a0, a1, a2), m2) =>
        .eof ({ IP := ip, Opcode := opcode, arg0 := a0, arg1 := a1, arg2 := a2,
                Wide := isWide, Signed := signed }, m2)
      | .err e ((a0, a1, a2), m2) =>
        .err e ({ IP := ip, Opcode := opcode, arg0 := a0, arg1 := a1, arg2 := a2,
                  Wide := isWide, Signed := signed }, m2)
      | .panicked => .panicked

/-! ## Device table (`devices/device.go`, `devices/id.go`) -/

/-- A connected peripheral: its packed id and the memory transformation its
synchronous `Int(Memory)` handler performs. -/
structure Dev where
  devId : Nat
  onInt : Mem → Mem

/-- Source `devices.NewID`: `(manufacturer & 0xffff) << 16 | (serial & 0xffff)`. -/
def NewID (manufacturer serial : Int) : Nat :=
  (manufacturer % 65536).toNat * 65536 + (serial % 65536).toNat

/-- Source `Map.Find`: insertion index of the device with the given id, `-1` on miss. -/
def devFind (devs : List Dev) (id : Nat) : Int :=
  match devs with
  | [] => -1
  | d :: rest => if d.devId = id then 0 else
      match devFind rest id with
      | -1 => -1
      | i => i + 1

/-- Source `Map.Int`: run the interrupt handler of device `index`; `none` when the
index is invalid. -/
def devInt (devs : List Dev) (index : Int) (m : Mem) : Option Mem :=
  if index < 0 ∨ (devs.length : Int) ≤ index then none
  else match devs, index.toNat with
       | [], _ => none
       | d :: _, 0 => some (d.onInt m)
       | _ :: rest, i + 1 => devInt rest i m

/-! ## CPU dispatch (`devices/fffe/cpu/cpu.go`, `CPU.Step`) -/

/-- Bounds-checked `SetU16` at an operand-supplied address (Go slice indexing
panics outside `[0, MemoryCapacity)`). -/
def setU16chk (m : Mem) (addr : Int) (v : Int) : Out Mem :=
  if 0 ≤ addr ∧ addr + 1 < (MemoryCapacity : Int) then .ok (SetU16 m addr.toNat v)
  else .panicked

/-- Bounds-checked `SetI16` at an operand-supplied address. -/
def setI16chk (m : Mem) (addr : Int) (v : Int) : Out Mem :=
  if 0 ≤ addr ∧ addr + 1 < (MemoryCapacity : Int) then .ok (SetI16 m addr.toNat v)
  else .panicked

/-- The opcode switch of `CPU.Step`, applied to a decoded instruction.
`rng n` models `c.rng.Intn(n)` for `n > 0` (the generator's next draw);
`pw a b` models `int(math.Pow(float64(a), float64(b)))`.  `ABS` routes
through `float64`, exact for the 16-bit operand values the decoder produces.
`DIV`/`MOD` use Go's truncating `/` and `%` (`Int.tdiv` / `Int.tmod`).
Opcodes without a case (for example `WAIT` here) fall through the switch
and leave the state unchanged. -/
def execInstr (rng : Nat → Nat) (pw : Int → Int → Int) (devs : List Dev)
    (i : Instr) (m : Mem) : Out Mem :=
  let a0 := i.arg0
  let a1 := i.arg1
  let a2 := i.arg2
  if i.Opcode = MOV then
    setI16chk m a0.Address a1.Value
  else if i.Opcode = PUSH then
    let rsp := U16 m RSP
    let m1 := SetU16 m RSP (rsp - 2)
    setU16chk m1 rsp a0.Value
  else if i.Opcode = POP then
    let rsp := U16 m RSP
    let va := I16 m (rsp + 2).toNat
    let m1 := SetU16 m RSP (rsp + 2)
    setU16chk m1 a0.Address va
  else if i.Opcode = RNG then
    let va := a0.Address
    let vb := goUint16 a1.Value
    let vc := goUint16 a2.Value
    if vc - vb < 0 then .ok (SetRSTOverflow m true)
    else
      let m1 := SetRSTOverflow m false
      -- `rand.Intn` panics when its argument is not positive.
      if vc - vb = 0 then .panicked
      else setI16chk m1 va (vb + (rng (vc - vb).toNat : Int))
  else if i.Opcode = SEED then
    -- Reseeds the generator; no memory effect (the generator is the `rng` oracle).
    .ok m
  else if i.Opcode = ADD then
    let v := a1.Value + a2.Value
    let m1 := SetRSTOverflow m (decide (v < -0x7fff ∨ v > 0x7fff))
    setU16chk m1 a0.Address v
  else if i.Opcode = SUB then
    let v := a1.Value - a2.Value
    let m1 := SetRSTOverflow m (decide (v < -0x7fff ∨ v > 0x7fff))
    setU16chk m1 a0.Address v
  else if i.Opcode = MUL then
    let v := a1.Value * a2.Value
    let m1 := SetRSTOverflow m (decide (v < -0x7fff ∨ v > 0x7fff))
    setU16chk m1 a0.Address v
  else if i.Opcode = DIV then
    if a2.Value = 0 then .ok (SetRSTDivideByZero m true)
    else
      let v := Int.tdiv a1.Value a2.Value
      obind (setU16chk m a0.Address v) (fun m1 => .ok (SetRSTDivideByZero m1 false)) id
  else if i.Opcode = MOD then
    if a2.Value = 0 then .ok (SetRSTDivideByZero m true)
    else
      let v := Int.tmod a1.Value a2.Value
      obind (setU16chk m a0.Address v) (fun m1 => .ok (SetRSTDivideByZero m1 false)) id
  else if i.Opcode = SHL then
    setU16chk m a0.Address (goShl a1.Value (goUint64 a2.Value))
  else if i.Opcode = SHR then
    setU16chk m a0.Address (goShr a1.Value (goUint64 a2.Value))
  else if i.Opcode = ANDOP then
    setU16chk m a0.Address (goLand a1.Value a2.Value)
  else if i.Opcode = OROP then
    setU16chk m a0.Address (goLor a1.Value a2.Value)
  else if i.Opcode = XOROP then
    setU16chk m a0.Address (goLxor a1.Value a2.Value)
  else if i.Opcode = ABS then
    setU16chk m a0.Address (Int.natAbs a1.Value : Int)
  else if i.Opcode = POW then
    let vc := pw a1.Value a2.Value
    let m1 := SetRSTOverflow m (decide (vc < -0x7fff ∨ vc > 0x7fff))
    setU16chk m1 a0.Address vc
  else if i.Opcode = CEQ then
    .ok (SetRSTCompare m (decide (a0.Value = a1.Value)))
  else if i.Opcode = CNE then
    .ok (SetRSTCompare m (decide (a0.Value ≠ a1.Value)))
  else if i.Opcode = CGT then
    .ok (SetRSTCompare m (decide (a0.Value > a1.Value)))
  else if i.Opcode = CGE then
    .ok (SetRSTCompare m (decide (a0.Value ≥ a1.Value)))
  else if i.Opcode = CLT then
    .ok (SetRSTCompare m (decide (a0.Value < a1.Value)))
  else if i.Opcode = CLE then
    .ok (SetRSTCompare m (decide (a0.Value ≤ a1.Value)))
  else if i.Opcode = JMP then
    .ok (SetU16 m RIP a0.Value)
  else if i.Opcode = JEZ then
    if RSTCompare m then .ok m else .ok (SetU16 m RIP a0.Value)
  else if i.Opcode = JNZ then
    if RSTCompare m then .ok (SetU16 m RIP a0.Value) else .ok m
  else if i.Opcode = CALL then
    let rsp := U16 m RSP
    let m1 := SetU16 m RSP (rsp - 2)
    obind (setU16chk m1 rsp (U16 m1 RIP)) (fun m2 => .ok (SetU16 m2 RIP a0.Value)) id
  else if i.Opcode = CLEZ then
    if RSTCompare m then .ok m
    else
      let rsp := U16 m RSP
      let m1 := SetU16 m RSP (rsp - 2)
      obind (setU16chk m1 rsp (U16 m1 RIP)) (fun m2 => .ok (SetU16 m2 RIP a0.Value)) id
  else if i.Opcode = CLNZ then
    if RSTCompare m then
      let rsp := U16 m RSP
      let m1 := SetU16 m RSP (rsp - 2)
      obind (setU16chk m1 rsp (U16 m1 RIP)) (fun m2 => .ok (SetU16 m2 RIP a0.Value)) id
    else .ok m
  else if i.Opcode = RET then
    let rsp := U16 m RSP
    let va := U16 m (rsp + 2).toNat
    let m1 := SetU16 m RSP (rsp + 2)
    .ok (SetU16 m1 RIP va)
  else if i.Opcode = HWA then
    let id := NewID a1.Value a2.Value
    let index := devFind devs id
    if index = -1 then .ok (SetRSTCompare m false)
    else
      let m1 := SetRSTCompare m true
      setU16chk m1 a0.Address index
  else if i.Opcode = INTOP then
    match devInt devs a0.Value m with
    | some m1 => .ok m1
    | none => .err ("invalid device index " ++ toString a0.Value) m
  else if i.Opcode = NOP then
    .ok m
  else if i.Opcode = HALT then
    .eof m
  else
    -- switch default: no effect.
    .ok m

/-- The CPU state carried between steps: the memory bank and the (reused)
decoded-instruction struct. -/
structure CpuState where
  mem : Mem
  instr : Instr

/-- A stale operand/instruction at power-up (zero value of the Go structs). -/
def operand0 : Operand := { Address := 0, Value := 0, Mode := 0 }

def instr0 : Instr :=
  { IP := 0, Opcode := 0, arg0 := operand0, arg1 := operand0, arg2 := operand0,
    Wide := false, Signed := false }

/-- One `CPU.Step` of the generation without an interrupt queue:
decode at `RIP`, then dispatch. -/
def stepCpu (rng : Nat → Nat) (pw : Int → Int → Int) (devs : List Dev)
    (c : CpuState) : Out CpuState :=
  match decodeInstruction c.mem c.instr with
  | .eof (i, m) => .eof { mem := m, instr := i }
  | .err e (i, m) => .err e { mem := m, instr := i }
  | .panicked => .panicked
  | .ok (i, m) =>
    match execInstr rng pw devs i m with
    | .ok m2 => .ok { mem := m2, instr := i }
    | .eof m2 => .eof { mem := m2, instr := i }
    | .err e m2 => .err e { mem := m2, instr := i }
    | .panicked => .panicked

/-- Run up to `fuel` steps, stopping at the first non-`ok` outcome
(the VM's run loop breaks on `io.EOF`). -/
def runCpu (rng : Nat → Nat) (pw : Int → Int → Int) (devs : List Dev) :
    Nat → CpuState → Out CpuState
  | 0, c => .ok c
  | n + 1, c =>
    match stepCpu rng pw devs c with
    | .ok c' => runCpu rng pw devs n c'
    | r => r

/-! ## AST nodes (`asm/parser/node.go`, `value.go`, `list.go`)
Source positions are omitted: no verified property depends on them (the one
error-message test below concerns the message text produced by the resolver,
which is position-independent). -/

inductive NType where
  | addressMode | ident | str | num | operator | typeDesc | label
  | scopeBegin | scopeEnd | breakpoint
  | instruction | expression | mdef | conditional | constant
deriving Repr, DecidableEq

/-- An AST node: a string-valued leaf or an ordered list, each with a kind. -/
inductive Node where
  | value (t : NType) (v : String)
  | list (t : NType) (children : List Node)

def Node.type : Node → NType
  | .value t _ => t
  | .list t _ => t

/-- The string payload of a value node (the Go code type-asserts `*parser.Value`). -/
def Node.valueStr : Node → String
  | .value _ v => v
  | .list _ _ => ""

def Node.children : Node → List Node
  | .value _ _ => []
  | .list _ c => c

/-- Source `hasValue` from eval: case-insensitive payload comparison. -/
def hasValue (n : Node) (v : String) : Bool := eqFold n.valueStr v

/-- Decimal digit run to a number; `none` when a non-digit appears. -/
def parseDecDigits (cs : List Char) (acc : Nat) : Option Nat :=
  match cs with
  | [] => some acc
  | c :: rest =>
    if '0' ≤ c ∧ c ≤ '9' then parseDecDigits rest (acc * 10 + (c.toNat - 48))
    else none

/-- Source `parser.ParseNumber` restricted to the base-10 form used by every verified
input (`BASE#digits` prefixes are not exercised here): optional sign, then
decimal digits; `none` mirrors the `strconv.ParseInt` error. -/
def ParseNumber (s : String) : Option Int :=
  match s.data with
  | [] => none
  | '-' :: rest =>
    match rest with
    | [] => none
    | _ => (parseDecDigits rest 0).map (fun n => -(n : Int))
  | '+' :: rest =>
    match rest with
    | [] => none
    | _ => (parseDecDigits rest 0).map (fun n => (n : Int))
  | cs => (parseDecDigits cs 0).map (fun n => (n : Int))

/-- Source `ParseNumber` as its callers use it: `num, _ := parser.ParseNumber(v)`
(zero when the parse failed). -/
def parseNumberOr0 (s : String) : Int := (ParseNumber s).getD 0

/-! ## Expression evaluator (`asm/eval/arith.go`) -/

/-- A value on the evaluation stack. Go uses `interface{}` holding `int64`,
`string` — or an untyped `bool`, which `eq`'s short path can produce. -/
inductive EV where
  | int (i : Int)
  | str (s : String)
  | bool (b : Bool)
deriving Repr, DecidableEq

/-- Go's `%T` for the stack value types. -/
def evType : EV → String
  | .int _ => "int64"
  | .str _ => "string"
  | .bool _ => "bool"

/-- Source `_bool`: the canonical integer representation of a bool (-1 / 0). -/
def goBool (x : Bool) : Int := if x then -1 else 0

def evErr (a : EV) (op : String) (b : EV) : String :=
  "can not evaluate " ++ evType a ++ " " ++ op ++ " " ++ evType b

/-- Source `eq`: the short path compares the two interface values directly and returns
the raw Go `true`; the typed paths below it are only reached by unequal values. -/
def evalEq (a b : EV) : Except String EV :=
  if a = b then .ok (.bool true)
  else
    match a, b with
    | .int va, .int vb => .ok (.int (goBool (va = vb)))
    | .str va, .str vb => .ok (.int (goBool (va = vb)))
    | _, _ => .error (evErr a "==" b)

def evalLt (a b : EV) : Except String EV :=
  match a, b with
  | .int va, .int vb => .ok (.int (goBool (va < vb)))
  | .str va, .str vb => .ok (.int (goBool (va < vb)))
  | _, _ => .error (evErr a "<" b)

def evalLe (a b : EV) : Except String EV :=
  match a, b with
  | .int va, .int vb => .ok (.int (goBool (va ≤ vb)))
  | .str va, .str vb => .ok (.int (goBool (va ≤ vb)))
  | _, _ => .error (evErr a "<=" b)

def evalGt (a b : EV) : Except String EV :=
  match a, b with
  | .int va, .int vb => .ok (.int (goBool (va > vb)))
  | .str va, .str vb => .ok (.int (goBool (va > vb)))
  | _, _ => .error (evErr a ">" b)

def evalGe (a b : EV) : Except String EV :=
  match a, b with
  | .int va, .int vb => .ok (.int (goBool (va ≥ vb)))
  | .str va, .str vb => .ok (.int (goBool (va ≥ vb)))
  | _, _ => .error (evErr a ">=" b)

/-- Source `add`: integer addition; an int mixed with a string becomes a one-rune
string (`string(rune(va))`) and concatenates. Integer results wrap as `int64`. -/
def evalAdd (a b : EV) : Except String EV :=
  match a, b with
  | .int va, .int vb => .ok (.int (goInt64 (va + vb)))
  | .int va, .str vb => .ok (.str (String.mk [Char.ofNat (goUint64 va % 1114112)] ++ vb))
  | .str va, .int vb => .ok (.str (va ++ String.mk [Char.ofNat (goUint64 vb % 1114112)]))
  | .str va, .str vb => .ok (.str (va ++ vb))
  | _, _ => .error (evErr a "+" b)

def evalSub (a b : EV) : Except String EV :=
  match a, b with
  | .int va, .int vb => .ok (.int (goInt64 (va - vb)))
  | _, _ => .error (evErr a "-" b)

def evalMul (a b : EV) : Except String EV :=
  match a, b with
  | .int va, .int vb => .ok (.int (goInt64 (va * vb)))
  | _, _ => .error (evErr a "*" b)

/-- Source `div`: Go division truncates toward zero and panics on a zero divisor
(modelled as an error value). -/
def evalDiv (a b : EV) : Except String EV :=
  match a, b with
  | .int va, .int vb =>
    if vb = 0 then .error "integer divide by zero" else .ok (.int (Int.tdiv va vb))
  | _, _ => .error (evErr a "/" b)

def evalMod (a b : EV) : Except String EV :=
  match a, b with
  | .int va, .int vb =>
    if vb = 0 then .error "integer divide by zero" else .ok (.int (Int.tmod va vb))
  | _, _ => .error (evErr a "%" b)

def evalShl (a b : EV) : Except String EV :=
  match a, b with
  | .int va, .int vb => .ok (.int (goShl va (goUint64 vb)))
  | _, _ => .error (evErr a "<<" b)

def evalShr (a b : EV) : Except String EV :=
  match a, b with
  | .int va, .int vb => .ok (.int (goShr va (goUint64 vb)))
  | _, _ => .error (evErr a ">>" b)

def evalAnd (a b : EV) : Except String EV :=
  match a, b with
  | .int va, .int vb => .ok (.int (goLand va vb))
  | _, _ => .error (evErr a "&" b)

def evalOr (a b : EV) : Except String EV :=
  match a, b with
  | .int va, .int vb => .ok (.int (goLor va vb))
  | _, _ => .error (evErr a "|" b)

def evalXor (a b : EV) : Except String EV :=
  match a, b with
  | .int va, .int vb => .ok (.int (goLxor va vb))
  | _, _ => .error (evErr a "^" b)

/-- Source `apply`: dispatch on the operator text. Note the absence of a `!=` case —
the default branch reports it as an unrecognized operation. -/
def applyOp (op : String) (a b : EV) : Except String EV :=
  match op with
  | "+" => evalAdd a b
  | "-" => evalSub a b
  | "*" => evalMul a b
  | "/" => evalDiv a b
  | "%" => evalMod a b
  | "<<" => evalShl a b
  | ">>" => evalShr a b
  | "&" => evalAnd a b
  | "|" => evalOr a b
  | "^" => evalXor a b
  | "==" => evalEq a b
  | "<" => evalLt a b
  | "<=" => evalLe a b
  | ">" => evalGt a b
  | ">=" => evalGe a b
  | _ => .error ("unrecognized operation " ++ op)

/-! ## Shunting-yard conversion (`asm/eval/postfix.go`) -/

/-- Source `opProperties`: precedence and left-associativity of an operator token.
The Go function panics on an unknown operator; that is surfaced as `none`
and turned into an error by the callers. -/
def opProperties (v : String) : Option (Nat × Bool) :=
  match v with
  | "(" => some (1, true)
  | ")" => some (1, true)
  | "u+" => some (3, false)
  | "u-" => some (3, false)
  | "u^" => some (3, false)
  | "+" => some (3, true)
  | "-" => some (3, true)
  | "*" => some (4, true)
  | "/" => some (4, true)
  | "%" => some (4, true)
  | ">>" => some (5, true)
  | "<<" => some (5, true)
  | "<=" => some (6, true)
  | ">=" => some (6, true)
  | "<" => some (6, true)
  | ">" => some (6, true)
  | "!=" => some (7, true)
  | "==" => some (7, true)
  | "&" => some (8, true)
  | "^" => some (9, false)
  | "|" => some (10, true)
  | _ => none

/-- The pop loop at the end of `postfixHandleOp`: move operators tighter than
(or equal and left-associative to) `n` from the stack to the output.  The
operator stack is kept head-first (head = top of the Go slice). -/
def popTighter (np : Nat) (nleft : Bool) (out ops : List Node) :
    Except String (List Node × List Node) :=
  match ops with
  | [] => .ok (out, [])
  | top :: rest =>
    match opProperties top.valueStr with
    | none => .error ("eval: unknown operator " ++ top.valueStr)
    | some (tp, _) =>
      if np < tp ∨ (np = tp ∧ nleft) then popTighter np nleft (out ++ [top]) rest
      else .ok (out, ops)

/-- Pop until the matching `(` for a `)` token. -/
def popToParen (out ops : List Node) : Except String (List Node × List Node) :=
  match ops with
  | [] => .error "mismatched closing parenthesis"
  | top :: rest =>
    if hasValue top "(" then .ok (out, rest)
    else popToParen (out ++ [top]) rest

/-- Source `postfixHandleOp`: one operator token of the shunting-yard loop. -/
def handleOp (out ops : List Node) (n : Node) : Except String (List Node × List Node) :=
  if hasValue n "(" then .ok (out, n :: ops)
  else if hasValue n ")" then popToParen out ops
  else
    match ops with
    | [] => .ok (out, [n])
    | top :: _ =>
      if hasValue top "(" then .ok (out, n :: ops)
      else
        match opProperties n.valueStr, opProperties top.valueStr with
        | none, _ => .error ("eval: unknown operator " ++ n.valueStr)
        | _, none => .error ("eval: unknown operator " ++ top.valueStr)
        | some (np, nleft), some (tp, _) =>
          if np > tp ∨ (np = tp ∧ ¬nleft) then .ok (out, n :: ops)
          else
            match popTighter np nleft out ops with
            | .error e => .error e
            | .ok (out', ops') => .ok (out', n :: ops')

/-- The node loop of `toPostfix`. -/
def toRPNLoop (nodes out ops : List Node) : Except String (List Node × List Node) :=
  match nodes with
  | [] => .ok (out, ops)
  | n :: rest =>
    match n.type with
    | .operator =>
      match handleOp out ops n with
      | .error e => .error e
      | .ok (out', ops') => toRPNLoop rest out' ops'
    | _ => toRPNLoop rest (out ++ [n]) ops

/-- Source `toPostfix`: infix to postfix; leftover `(` on the stack is an error,
the rest of the stack is drained last-pushed-first. -/
def toRPN (nodes : List Node) : Except String (List Node) :=
  match toRPNLoop nodes [] [] with
  | .error e => .error e
  | .ok (out, ops) =>
    if ops.any (fun n => hasValue n "(") then .error "mismatched opening parenthesis"
    else .ok (out ++ ops)

/-! ## Postfix reduction (`asm/eval/error.go`, `Evaluate` and `evalPostfix`) -/

/-- Source `parseValue`: a number literal to its `int64`, a string to itself
(the `ParseNumber` error is discarded, yielding 0). -/
def parseValue (n : Node) : Except String EV :=
  match n.type with
  | .num => .ok (.int (parseNumberOr0 n.valueStr))
  | .str => .ok (.str n.valueStr)
  | _ => .error ("invalid node type; expected number or string")

/-- The element loop of `evalPostfix`, on a head-first value stack. -/
def evalRPNLoop (resolve : String → Except String Int) (nodes : List Node)
    (stack : List EV) : Except String (List EV) :=
  match nodes with
  | [] => .ok stack
  | n :: rest =>
    match n.type with
    | .addressMode => evalRPNLoop resolve rest stack
    | .typeDesc => evalRPNLoop resolve rest stack
    | .ident =>
      match resolve (lowStr n.valueStr) with
      | .error e => .error e
      | .ok value => evalRPNLoop resolve rest (.int value :: stack)
    | .num =>
      match parseValue n with
      | .error e => .error e
      | .ok ev => evalRPNLoop resolve rest (ev :: stack)
    | .str =>
      match parseValue n with
      | .error e => .error e
      | .ok ev => evalRPNLoop resolve rest (ev :: stack)
    | _ =>
      let s := n.valueStr
      match stack with
      | [] =>
        if n.type = .operator then .error ("missing operand for operation " ++ s)
        else .error ("missing operands for operation " ++ s)
      | [vb] =>
        if n.type = .operator then
          -- unary operation: `va = 0`
          match applyOp s (.int 0) vb with
          | .error e => .error e
          | .ok vc => evalRPNLoop resolve rest [vc]
        else .error ("missing operands for operation " ++ s)
      | vb :: va :: stack' =>
        match applyOp s va vb with
        | .error e => .error e
        | .ok vc => evalRPNLoop resolve rest (vc :: stack')

/-- Source `evalPostfix`: reduce the postfix node list to a single value node. -/
def evalRPN (resolve : String → Except String Int) (nodes : List Node) :
    Except String Node :=
  match evalRPNLoop resolve nodes [] with
  | .error e => .error e
  | .ok [] => .error "invalid expression; no result"
  | .ok [v] =>
    match v with
    | .int tv => .ok (.value .num (toString tv))
    | .str tv => .ok (.value .str tv)
    | other => .error ("expression evaluates to invalid type " ++ evType other)
  | .ok (_ :: _ :: _) => .error "invalid expression; too many results"

/-- The rebuild step of `evalExpression`: keep leading address-mode and
type-descriptor markers (walking the postfix node order), then the value. -/
def rebuildExpr (rpn : List Node) (value : Node) : List Node :=
  match rpn with
  | [] => []
  | n :: rest =>
    match n.type with
    | .typeDesc => n :: rebuildExpr rest value
    | .addressMode => n :: rebuildExpr rest value
    | _ => [value]

/-- Source `evalExpression`: shunting-yard, reduce, then rebuild the expression list. -/
def evalExpression (resolve : String → Except String Int) (n : Node) :
    Except String Node :=
  match toRPN n.children with
  | .error e => .error e
  | .ok rpn =>
    match evalRPN resolve rpn with
    | .error e => .error e
    | .ok value => .ok (.list n.type (rebuildExpr rpn value))

/-- List-of-characters containment, used to model `strings.Index(s, sub) != -1`. -/
def startsWithL (needle hay : List Char) : Bool :=
  match needle, hay with
  | [], _ => true
  | _ :: _, [] => false
  | a :: ns, b :: hs => a = b ∧ startsWithL ns hs

def containsSub (needle hay : List Char) : Bool :=
  if startsWithL needle hay then true
  else match hay with
       | [] => false
       | _ :: t => containsSub needle t

/-- The substring the `Evaluate` wrapper looks for before swallowing an error. -/
def swallowPattern : String := "reference to undefined value"

/-- Source `eval.Evaluate`: evaluate every operand expression of an instruction; an
error whose text contains `swallowPattern` is swallowed (the operand is left
untouched and the loop continues), any other error aborts. -/
def Evaluate (resolve : String → Except String Int) (instr : Node) :
    Except String Node :=
  match instr with
  | .value t v => .ok (.value t v)
  | .list t children =>
    match children with
    | [] => .ok (.list t [])
    | name :: operands =>
      let rec go (ops : List Node) : Except String (List Node) :=
        match ops with
        | [] => .ok []
        | op :: rest =>
          match evalExpression resolve op with
          | .ok op' =>
            match go rest with
            | .error e => .error e
            | .ok rest' => .ok (op' :: rest')
          | .error e =>
            if containsSub swallowPattern.data e.data then
              match go rest with
              | .error e' => .error e'
              | .ok rest' => .ok (op :: rest')
            else .error e
      match go operands with
      | .error e => .error e
      | .ok operands' => .ok (.list t (name :: operands'))

/-- The error text `assembler.resolveReference` produces for a symbol that is
not in the symbol table. -/
def resolveErrMsg (name : String) : String := "reference to unresolved value " ++ name

/-- A resolver over a fixed symbol table (scope climbing collapsed into the
caller-supplied lookup), failing with the resolver's message text. -/
def tableResolver (table : List (String × Int)) (name : String) : Except String Int :=
  match table.find? (fun p => p.1 = name) with
  | some p => .ok p.2
  | none => .error (resolveErrMsg name)

/-! ## Instruction encoder (`asm/assembler.go`) -/

/-- Source `isDataDirective`: `d8/d16/d32/d64` instruction and its element size. -/
def isDataDirective (n : Node) : Option Nat :=
  match n with
  | .list .instruction (name :: _) =>
    match lowStr name.valueStr with
    | "d8" => some 1
    | "d16" => some 2
    | "d32" => some 4
    | "d64" => some 8
    | _ => none
  | _ => none

/-- Source `writeData`: serialise one value as `size` bytes, high byte first. -/
def writeData (out : List Nat) (v : Int) (size : Nat) : List Nat :=
  if size = 1 then out ++ [goByte v]
  else if size = 2 then out ++ [goByte (v / 256), goByte v]
  else if size = 4 then
    out ++ [goByte (v / 16777216), goByte (v / 65536), goByte (v / 256), goByte v]
  else if size = 8 then
    out ++ [goByte (v / 72057594037927936), goByte (v / 281474976710656),
            goByte (v / 1099511627776), goByte (v / 4294967296),
            goByte (v / 16777216), goByte (v / 65536), goByte (v / 256), goByte v]
  else out

/-- The value loop of the assembler.go `encodeDataDirective`: the first value of
each operand expression, strings expanded code-point-wise. -/
def encodeDataValuesA (out : List Nat) (operands : List Node) (size : Nat) : List Nat :=
  match operands with
  | [] => out
  | expr :: rest =>
    let value := match expr.children with
                 | v :: _ => v
                 | [] => .value .num ""
    let out' :=
      if value.type = .str then
        value.valueStr.data.foldl (fun o r => writeData o (r.toNat : Int) size) out
      else writeData out (parseNumberOr0 value.valueStr) size
    encodeDataValuesA out' rest size

/-- Source `encodeDataDirective` of assembler.go. -/
def encodeDataDirectiveA (instr : Node) (size : Nat) : List Nat :=
  encodeDataValuesA [] instr.children.tail size

/-- The operand loop of `assembler.encode`: default mode 1, `r` prefix mode 2,
`$` prefix mode 0; register operands one byte, the rest three bytes with the
16-bit value big-endian. -/
def encodeOperands (out : List Nat) (operands : List Node) : List Nat :=
  match operands with
  | [] => out
  | expr :: rest =>
    let (mode, value) :=
      if expr.children.length = 2 then
        let m0 : Nat :=
          match (expr.children.headD (.value .num "")).valueStr with
          | "r" => 2
          | "$" => 0
          | _ => 1
        (m0, expr.children.getD 1 (.value .num ""))
      else (1, expr.children.headD (.value .num ""))
    let num := parseNumberOr0 value.valueStr
    let out' :=
      if mode = 2 then out ++ [mode * 64 + (num % 64).toNat]
      else out ++ [mode * 64, goByte (num / 256), goByte num]
    encodeOperands out' rest

/-- Source `assembler.encode`: data directives expand their values; otherwise one
opcode byte followed by the encoded operands. -/
def encode (instr : Node) : Except String (List Nat) :=
  match isDataDirective instr with
  | some size => .ok (encodeDataDirectiveA instr size)
  | none =>
    match instr.children with
    | [] => .error "unknown instruction"
    | name :: operands =>
      match Opcode name.valueStr with
      | none => .error ("unknown instruction " ++ name.valueStr)
      | some opcode => .ok (encodeOperands [opcode] operands)

/-- Source `assembler.evaluateInstructions`: evaluate the operand expressions of every
instruction node (scope tracking folded into the resolver; none of the verified
programs reference `$$`). -/
def evaluateInstructions (resolve : String → Except String Int) (nodes : List Node) :
    Except String (List Node) :=
  match nodes with
  | [] => .ok []
  | n :: rest =>
    match n.type with
    | .instruction =>
      match Evaluate resolve n with
      | .error e => .error e
      | .ok n' =>
        match evaluateInstructions resolve rest with
        | .error e => .error e
        | .ok rest' => .ok (n' :: rest')
    | _ =>
      match evaluateInstructions resolve rest with
      | .error e => .error e
      | .ok rest' => .ok (n :: rest')

/-- Source `assembler.compile`: concatenate the encodings of all instruction nodes. -/
def compileNodes (nodes : List Node) : Except String (List Nat) :=
  match nodes with
  | [] => .ok []
  | n :: rest =>
    match n.type with
    | .instruction =>
      match encode n with
      | .error e => .error e
      | .ok code =>
        match compileNodes rest with
        | .error e => .error e
        | .ok codes => .ok (code ++ codes)
    | _ => compileNodes rest

/-! ## Scenario S1 (`:main { mov r0, 1+2*3  halt }`) -/

/-- The S1 `mov` instruction node after parsing and the syntax pass: the first
operand is the register pair the parser produces for `r0`, the second the
infix expression `1+2*3`. -/
def s1Mov : Node :=
  .list .instruction
    [.value .ident "mov",
     .list .expression [.value .addressMode "r", .value .num "0"],
     .list .expression
       [.value .num "1", .value .operator "+", .value .num "2",
        .value .operator "*", .value .num "3"]]

def s1Halt : Node := .list .instruction [.value .ident "halt"]

/-- The S1 node list after macro and label resolution (the `:main` label is
recorded at address 0 — the entrypoint — and removed). -/
def s1Nodes : List Node :=
  [.value .scopeBegin "main", s1Mov, s1Halt, .value .scopeEnd ""]

/-- The S1 symbol table holds only `main = 0`; operand expressions reference no
symbols at all. -/
def s1Resolver : String → Except String Int := tableResolver [("main", 0)]

/-- The assembled S1 program bytes. -/
def s1Program : Except String (List Nat) :=
  match evaluateInstructions s1Resolver s1Nodes with
  | .error e => .error e
  | .ok nodes => compileNodes nodes

/-- Source `CPU.Startup`: zero memory, load the program at 0, `RIP = entrypoint`,
`RSP = UserMemoryCapacity - 2`, `RST = 0`. -/
def startupMem (program : List Nat) (entrypoint : Int) : Mem :=
  let rec load (m : Mem) (addr : Nat) (bytes : List Nat) : Mem :=
    match bytes with
    | [] => m
    | b :: rest => load (memSet m addr (b % 256)) (addr + 1) rest
  let m0 := load memZero 0 program
  SetU8 (SetU16 (SetU16 m0 RIP entrypoint) RSP ((UserMemoryCapacity : Int) - 2)) RST 0

/-- Unused oracles for programs that execute neither `RNG` nor `POW`. -/
def rng0 : Nat → Nat := fun _ => 0

def pw0 : Int → Int → Int := fun _ _ => 0

/-- Execute the S1 program to completion (fuel 8 covers its two instructions). -/
def s1Run : Out CpuState :=
  match s1Program with
  | .ok prog => runCpu rng0 pw0 [] 8 { mem := startupMem prog 0, instr := instr0 }
  | _ => .panicked

/-- The 16-bit value in `R0` and the overflow flag once S1 reaches `HALT`. -/
def s1Result : Option (Int × Bool) :=
  match s1Run with
  | .eof c => some (U16 c.mem R0, RSTOverflow c.mem)
  | _ => none

/-! ## Device interrupt queue (the cpu-package generation with `intQueue`) -/

def IntQueueCapacity : Nat := 32

/-- CPU state of the interrupt-queue generation: the memory bank plus the
FIFO `intQueue chan int` (head = oldest message). -/
structure QCpu where
  mem : Mem
  intQueue : List Int

/-- Source `CPU.push`: store at the current `RSP`, then lower `RSP` by 2. -/
def qPush (c : QCpu) (value : Int) : QCpu :=
  let rsp := U16 c.mem RSP
  let m1 := SetU16 c.mem RSP (rsp - 2)
  { c with mem := SetU16 m1 rsp.toNat value }

/-- Source `CPU.pop`: raise `RSP` by 2 and return the value it previously guarded. -/
def qPop (c : QCpu) : Int × QCpu :=
  let rsp := U16 c.mem RSP
  let m1 := SetU16 c.mem RSP (rsp + 2)
  (I16 m1 (rsp + 2).toNat, { c with mem := m1 })

/-- Source `CPU.checkIntQueue`: if a message is queued, pop it unconditionally:
push `RIP`, push `R0`, `R0 = msg`, `RIP = RIA`.  No flag records being inside
a handler, and `RIA` is not examined here. -/
def checkIntQueue (c : QCpu) : QCpu :=
  match c.intQueue with
  | [] => c
  | msg :: rest =>
    let c0 := { c with intQueue := rest }
    let ria := U16 c0.mem RIA
    let c1 := qPush c0 (U16 c0.mem RIP)
    let c2 := qPush c1 (U16 c1.mem R0)
    let m3 := SetU16 c2.mem R0 msg
    { c2 with mem := SetU16 m3 RIP ria }

/-- Source `CPU.queueInterrupt`: drop the message when `RIA == 0` or the queue is at
capacity; otherwise append it. -/
def queueInterrupt (c : QCpu) (msg : Int) : QCpu :=
  if U16 c.mem RIA = 0 then c
  else if c.intQueue.length < IntQueueCapacity then
    { c with intQueue := c.intQueue ++ [msg] }
  else c

/-! ## Layout and data directives (`asm/build.go`) -/

/-- Source `isIdent`: a value node of kind ident with the given (case-insensitive) name. -/
def isIdent (n : Node) (name : String) : Bool :=
  n.type = .ident ∧ eqFold n.valueStr name

/-- Source `isReservedDataDirective`: a `reserve N` instruction and its byte count. -/
def isReservedDataDirective (n : Node) : Option Nat :=
  match n with
  | .list .instruction (name :: expr :: _) =>
    if isIdent name "reserve" then
      let num := if expr.children.length = 1
                 then expr.children.headD (.value .num "")
                 else expr.children.getD 1 (.value .num "")
      some (parseNumberOr0 num.valueStr).toNat
    else none
  | _ => none

/-- Source `isAddrDirective`: an `address N` instruction; yields `N - address`. -/
def isAddrDirective (n : Node) (address : Int) : Option Int :=
  match n with
  | .list .instruction (name :: expr :: _) =>
    if isIdent name "address" then
      let num := if expr.children.length = 1
                 then expr.children.headD (.value .num "")
                 else expr.children.getD 1 (.value .num "")
      some (parseNumberOr0 num.valueStr - address)
    else none
  | _ => none

/-- Source `encodedExprLen`: one byte for a register operand, three otherwise. -/
def encodedExprLen (expr : Node) : Nat :=
  if expr.children.any (fun n => n.type = .addressMode ∧ n.valueStr = "r") then 1 else 3

/-- build.go `encodedLen`: the byte size the label-resolution pass accounts to a
node.  A data directive is counted as `(operand count) * size` — each operand
expression as one element, whatever it holds. -/
def encodedLen (n : Node) (address : Int) : Int :=
  match isAddrDirective n address with
  | some size => size
  | none =>
  match isReservedDataDirective n with
  | some size => size
  | none =>
  match isDataDirective n with
  | some size => ((n.children.length : Int) - 1) * size
  | none =>
  if n.type ≠ .instruction then 0
  else
    match n.children with
    | [] => 1
    | name :: operands =>
      let opcode := (Opcode name.valueStr).getD 0
      let argc := Argc opcode
      1 + (if argc ≥ 1 then (encodedExprLen (operands.getD 0 (.value .num "")) : Int) else 0)
        + (if argc ≥ 2 then (encodedExprLen (operands.getD 1 (.value .num "")) : Int) else 0)
        + (if argc ≥ 3 then (encodedExprLen (operands.getD 2 (.value .num "")) : Int) else 0)

/-- The value loop of the build.go `encodeDataDirective`: like the assembler.go
one, but an address-mode marker heading the expression is skipped. -/
def encodeDataValuesB (out : List Nat) (operands : List Node) (size : Nat) : List Nat :=
  match operands with
  | [] => out
  | expr :: rest =>
    let value0 := expr.children.headD (.value .num "")
    let value := if value0.type = .addressMode
                 then expr.children.getD 1 (.value .num "")
                 else value0
    let out' :=
      if value.type = .str then
        value.valueStr.data.foldl (fun o r => writeData o (r.toNat : Int) size) out
      else writeData out (parseNumberOr0 value.valueStr) size
    encodeDataValuesB out' rest size

/-- build.go `encodeDataDirective`: every value serialised with `writeData`,
strings expanded code-point-wise at the directive's element size. -/
def encodeDataDirective (instr : Node) (size : Nat) : List Nat :=
  encodeDataValuesB [] instr.children.tail size

/-- The `d8 "ab"` node: a data directive with one two-rune string operand. -/
def d8abNode : Node :=
  .list .instruction
    [.value .ident "d8", .list .expression [.value .str "ab"]]

/-! ## Archive format (`asm/ar/io.go`, `debug.go`, `archive.go`)
All integers in the framed payload are little-endian. -/

/-- Source `writeU8`: one byte. -/
def writeU8A (v : Int) : List Nat := [goByte v]

/-- Source `writeU16`, little-endian. -/
def writeU16A (v : Int) : List Nat := [goByte v, goByte (v / 256)]

/-- Source `writeU32`, little-endian. -/
def writeU32A (v : Int) : List Nat :=
  [goByte v, goByte (v / 256), goByte (v / 65536), goByte (v / 16777216)]

/-- Source `writeBytes`: u16 length then the raw bytes. -/
def writeBytesA (p : List Nat) : List Nat := writeU16A (p.length : Int) ++ p

/-- Source `readU8`: `none` models the panic raised through `check` on a short read. -/
def readU8A (s : List Nat) : Option (Int × List Nat) :=
  match s with
  | b :: rest => some ((b % 256 : Nat), rest)
  | [] => none

def readU16A (s : List Nat) : Option (Int × List Nat) :=
  match s with
  | b0 :: b1 :: rest => some (((b0 % 256 : Nat) : Int) + 256 * ((b1 % 256 : Nat) : Int), rest)
  | _ => none

def readU32A (s : List Nat) : Option (Int × List Nat) :=
  match s with
  | b0 :: b1 :: b2 :: b3 :: rest =>
    some (((b0 % 256 : Nat) : Int) + 256 * ((b1 % 256 : Nat) : Int)
          + 65536 * ((b2 % 256 : Nat) : Int) + 16777216 * ((b3 % 256 : Nat) : Int), rest)
  | _ => none

/-- Source `readBytes`: u16 size, then exactly that many bytes (`io.ReadFull`). -/
def readBytesA (s : List Nat) : Option (List Nat × List Nat) :=
  match readU16A s with
  | none => none
  | some (sz, rest) =>
    if (rest.length : Int) < sz then none
    else some (rest.take sz.toNat, rest.drop sz.toNat)

/-- One debug record (`ar.DebugData`); the Go fields are `int`. -/
structure DebugData where
  Address : Int
  File : Int
  Line : Int
  Col : Int
  Offset : Int
  Flags : Int
deriving Repr, DecidableEq

/-- Source `DebugData.write`: u16 address, u8 file, u16 line, u16 col, u32 offset, u8 flags. -/
def writeDebugData (d : DebugData) : List Nat :=
  writeU16A d.Address ++ writeU8A d.File ++ writeU16A d.Line ++ writeU16A d.Col ++
  writeU32A d.Offset ++ writeU8A d.Flags

/-- Source `DebugData.read`. -/
def readDebugData (s : List Nat) : Option (DebugData × List Nat) :=
  match readU16A s with
  | none => none
  | some (address, s1) =>
  match readU8A s1 with
  | none => none
  | some (file, s2) =>
  match readU16A s2 with
  | none => none
  | some (line, s3) =>
  match readU16A s3 with
  | none => none
  | some (col, s4) =>
  match readU32A s4 with
  | none => none
  | some (offset, s5) =>
  match readU8A s5 with
  | none => none
  | some (flags, s6) =>
    some ({ Address := address, File := file, Line := line, Col := col,
            Offset := offset, Flags := flags }, s6)

/-- An archive (`ar.Archive` with its `ar.Debug`): file paths as byte lists
(Go strings), debug records, and the raw instruction bytes. -/
structure ArchiveA where
  Files : List (List Nat)
  Symbols : List DebugData
  Instructions : List Nat
deriving Repr, DecidableEq

/-- The file-path loop of `Debug.write`. -/
def writeFilesA (files : List (List Nat)) : List Nat :=
  match files with
  | [] => []
  | f :: rest => writeBytesA f ++ writeFilesA rest

/-- The symbol loop of `Debug.write`. -/
def writeSymbolsA (syms : List DebugData) : List Nat :=
  match syms with
  | [] => []
  | d :: rest => writeDebugData d ++ writeSymbolsA rest

/-- Source `Debug.write`: u8 file count, the files, u16 symbol count, the records. -/
def writeDebug (files : List (List Nat)) (syms : List DebugData) : List Nat :=
  writeU8A (files.length : Int) ++ writeFilesA files ++
  writeU16A (syms.length : Int) ++ writeSymbolsA syms

/-- The file-path loop of `Debug.read`. -/
def readFilesA (n : Nat) (s : List Nat) : Option (List (List Nat) × List Nat) :=
  match n with
  | 0 => some ([], s)
  | k + 1 =>
    match readBytesA s with
    | none => none
    | some (f, s1) =>
      match readFilesA k s1 with
      | none => none
      | some (fs, s2) => some (f :: fs, s2)

/-- The symbol loop of `Debug.read`. -/
def readSymbolsA (n : Nat) (s : List Nat) : Option (List DebugData × List Nat) :=
  match n with
  | 0 => some ([], s)
  | k + 1 =>
    match readDebugData s with
    | none => none
    | some (d, s1) =>
      match readSymbolsA k s1 with
      | none => none
      | some (ds, s2) => some (d :: ds, s2)

/-- Source `Debug.read`. -/
def readDebug (s : List Nat) : Option ((List (List Nat) × List DebugData) × List Nat) :=
  match readU8A s with
  | none => none
  | some (nf, s1) =>
  match readFilesA nf.toNat s1 with
  | none => none
  | some (files, s2) =>
  match readU16A s2 with
  | none => none
  | some (ns, s3) =>
  match readSymbolsA ns.toNat s3 with
  | none => none
  | some (syms, s4) => some ((files, syms), s4)

/-- Modelled from the spec: the gzip container supplied by Go's `compress/gzip`
library (library code, not part of this repository).  A stream is a valid gzip
stream iff it carries the gzip magic bytes `0x1f 0x8b` up front, and unwrapping
restores the compressed payload. -/
def gzipWrap (payload : List Nat) : List Nat := 31 :: 139 :: payload

/-- Modelled from the spec: gzip detection; `gzip.NewReader` fails on a stream
that does not start with the magic bytes. -/
def isGzipStream (s : List Nat) : Bool :=
  match s with
  | 31 :: 139 :: _ => true
  | _ => false

/-- Source `Archive.Save`: the debug table, then the instruction bytes, gzip-wrapped. -/
def saveArchive (a : ArchiveA) : List Nat :=
  gzipWrap (writeDebug a.Files a.Symbols ++ writeBytesA a.Instructions)

/-- Source `Archive.Load`: a gunzip failure is the `invalid archive format` error; then
the debug table and the instruction bytes (trailing bytes are ignored). -/
def loadArchive (s : List Nat) : Except String ArchiveA :=
  match s with
  | 31 :: 139 :: payload =>
    (match readDebug payload with
     | none => .error "ar"
     | some ((files, syms), s1) =>
       match readBytesA s1 with
       | none => .error "ar"
       | some (instrs, _) =>
         .ok { Files := files, Symbols := syms, Instructions := instrs })
  | _ => .error "ar: invalid archive format"

/-! ## Typed operand ranges (spec side, for the overflow-flag claim) -/

/-- Modelled from the spec: the `[min, max]` range of each operand type
descriptor (`u8:[0,255], u16:[0,65535], i8:[-127,127], i16:[-32767,32767]`,
the ranges `Type.Limits` yields in the typed generation of `CPU.Step`,
whose `Limits` implementation is not among the sources). -/
def typeLimits (t : Nat) : Int × Int :=
  if t = 0 then (0, 255)
  else if t = 1 then (0, 65535)
  else if t = 2 then (-127, 127)
  else (-32767, 32767)

/-- Modelled from the spec: the claimed overflow condition — the full-width
result lies outside the destination type's range. -/
def specTypedOverflow (t : Nat) (v : Int) : Bool :=
  let lim := typeLimits t
  decide (v < lim.1 ∨ v > lim.2)

/-! ## Concrete states and inputs used by the verified properties -/

/-- The S1 infix operand expression `1+2*3`. -/
def s1Expr : Node :=
  .list .expression
    [.value .num "1", .value .operator "+", .value .num "2",
     .value .operator "*", .value .num "3"]

/-- A machine right after startup with `RIA = 1`: interrupts armed. -/
def c2Start : QCpu := { mem := SetU16 (startupMem [] 0) RIA 1, intQueue := [] }

/-- A device callback enqueues message 5 while `RIA = 1`. -/
def c2Enqueued : QCpu := queueInterrupt c2Start 5

/-- The program (or anything else) clears `RIA` before the next step. -/
def c2RiaCleared : QCpu := { c2Enqueued with mem := SetU16 c2Enqueued.mem RIA 0 }

/-- The queue check at the top of the next step. -/
def c2Delivered : QCpu := checkIntQueue c2RiaCleared

/-- A decoded `ADD r0, 0x4000, 0x4000` whose destination operand is typed u16
(wide, unsigned — type descriptor 1). -/
def c3Instr : Instr :=
  { IP := 0, Opcode := ADD,
    arg0 := { Address := (R0 : Int), Value := 0, Mode := 2 },
    arg1 := { Address := 16384, Value := 16384, Mode := 0 },
    arg2 := { Address := 16384, Value := 16384, Mode := 0 },
    Wide := true, Signed := false }

/-- The memory after executing `c3Instr` from a fresh startup state. -/
def c3ExecMem : Option Mem :=
  match execInstr rng0 pw0 [] c3Instr (startupMem [] 0) with
  | .ok m => some m
  | _ => none

/-- A decoded `PUSH 5` (constant operand). -/
def c5Instr : Instr :=
  { IP := 0, Opcode := PUSH,
    arg0 := { Address := 5, Value := 5, Mode := 0 },
    arg1 := operand0, arg2 := operand0,
    Wide := true, Signed := false }

/-- The memory after executing `PUSH 5` from a fresh startup state
(`RSP = 0xfffe`, all of user memory zero). -/
def c5ExecMem : Option Mem :=
  match execInstr rng0 pw0 [] c5Instr (startupMem [] 0) with
  | .ok m => some m
  | _ => none

/-- An instruction whose operand references the undefined symbol `foo`. -/
def c7Instr : Node :=
  .list .instruction
    [.value .ident "jmp", .list .expression [.value .ident "foo"]]

/-- An archive within all the bounds the round-trip claim states, whose single
debug record has an address that does not fit in 16 bits. -/
def c9Bad : ArchiveA :=
  { Files := [],
    Symbols := [{ Address := 65536, File := 0, Line := 0, Col := 0, Offset := 0, Flags := 0 }],
    Instructions := [] }

/-- Well-formedness of one debug record: every field fits the width the archive
format serialises it at. -/
def wfSymbol (d : DebugData) : Prop :=
  0 ≤ d.Address ∧ d.Address < 65536 ∧ 0 ≤ d.File ∧ d.File < 256 ∧
  0 ≤ d.Line ∧ d.Line < 65536 ∧ 0 ≤ d.Col ∧ d.Col < 65536 ∧
  0 ≤ d.Offset ∧ d.Offset < 4294967296 ∧ 0 ≤ d.Flags ∧ d.Flags < 256

/-- Well-formedness of an archive for the save/load round trip: the counts the
claim bounds, plus the per-field widths the counterexample shows are needed. -/
def wfArchive (a : ArchiveA) : Prop :=
  a.Files.length < 256 ∧ (∀ f ∈ a.Files, f.length < 65536) ∧
  a.Symbols.length < 65536 ∧ (∀ d ∈ a.Symbols, wfSymbol d) ∧
  a.Instructions.length < 65536

instance (d : DebugData) : Decidable (wfSymbol d) := by
  unfold wfSymbol
  infer_instance

instance (a : ArchiveA) : Decidable (wfArchive a) := by
  unfold wfArchive
  infer_instance

/-- A decoded `DIV r0, 9, 0` — zero divisor. -/
def c4Div0 : Instr :=
  { IP := 0, Opcode := DIV,
    arg0 := { Address := (R0 : Int), Value := 0, Mode := 2 },
    arg1 := { Address := 9, Value := 9, Mode := 0 },
    arg2 := { Address := 0, Value := 0, Mode := 0 },
    Wide := true, Signed := false }

/-- An archive exercising every part of the framed format within its bounds. -/
def c9Good : ArchiveA :=
  { Files := [[104, 105]],
    Symbols := [{ Address := 3, File := 0, Line := 9, Col := 2, Offset := 7, Flags := 1 }],
    Instructions := [2, 128] }

/-- A decoded `RNG r0, 7, 7` — an empty range, `hi = lo`. -/
def c10Instr : Instr :=
  { IP := 0, Opcode := RNG,
    arg0 := { Address := (R0 : Int), Value := 0, Mode := 2 },
    arg1 := { Address := 7, Value := 7, Mode := 0 },
    arg2 := { Address := 7, Value := 7, Mode := 0 },
    Wide := true, Signed := false }

/-! ## Helper lemmas -/

theorem memSet_read (m : Mem) (a v x : Nat) :
    memSet m a v x = if x = a then v else m x := rfl

theorem U16_nonneg_lt (m : Mem) (a : Nat) : 0 ≤ U16 m a ∧ U16 m a < 65536 := by
  unfold U16
  have h1 : m a % 256 < 256 := Nat.mod_lt _ (by norm_num)
  have h2 : m (a + 1) % 256 < 256 := Nat.mod_lt _ (by norm_num)
  omega

theorem U16_SetU16_same (m : Mem) (a : Nat) (v : Int) :
    U16 (SetU16 m a v) a = v % 65536 := by
  unfold U16 SetU16 memSet goByte
  rw [if_neg (by omega : ¬ a = a + 1), if_pos rfl, if_pos rfl]
  have h1 : 0 ≤ v / 256 % 256 := Int.emod_nonneg _ (by norm_num)
  have h2 : 0 ≤ v % 256 := Int.emod_nonneg _ (by norm_num)
  omega

theorem U16_SetU16_other (m : Mem) (a : Nat) (v : Int) (x : Nat)
    (h1 : x ≠ a) (h2 : x ≠ a + 1) (h3 : x + 1 ≠ a) (h4 : x + 1 ≠ a + 1) :
    U16 (SetU16 m a v) x = U16 m x := by
  unfold U16 SetU16 memSet
  rw [if_neg h2, if_neg h1, if_neg h4, if_neg h3]

theorem byte_read_SetU16_other (m : Mem) (a : Nat) (v : Int) (x : Nat)
    (h1 : x ≠ a) (h2 : x ≠ a + 1) : SetU16 m a v x = m x := by
  unfold SetU16 memSet
  rw [if_neg h2, if_neg h1]

theorem rstPut_other (m : Mem) (flag : Nat) (b : Bool) (x : Nat) (h : x ≠ RST) :
    rstPut m flag b x = m x := by
  unfold rstPut memSet
  by_cases hb : b <;> simp [hb, if_neg h]

theorem U16_rstPut (m : Mem) (flag : Nat) (b : Bool) (x : Nat)
    (h1 : x ≠ RST) (h2 : x + 1 ≠ RST) : U16 (rstPut m flag b) x = U16 m x := by
  unfold U16
  rw [rstPut_other m flag b x h1, rstPut_other m flag b (x + 1) h2]

set_option maxRecDepth 16384

theorem lor2_bit : ∀ x < 256, Nat.land (Nat.lor x 2 % 256) 2 = 2 := by decide

theorem andnot2_bit : ∀ x < 256, Nat.land (Nat.land x (255 ^^^ 2) % 256) 2 ≠ 2 := by decide

theorem lor4_bit : ∀ x < 256, Nat.land (Nat.lor x 4 % 256) 4 = 4 := by decide

theorem andnot4_bit : ∀ x < 256, Nat.land (Nat.land x (255 ^^^ 4) % 256) 4 ≠ 4 := by decide

theorem RSTOverflow_SetRSTOverflow (m : Mem) (b : Bool) :
    RSTOverflow (SetRSTOverflow m b) = b := by
  unfold RSTOverflow SetRSTOverflow rstGet rstPut memSet
  have hlt : m RST % 256 < 256 := Nat.mod_lt _ (by norm_num)
  by_cases hb : b <;> simp [hb]
  · exact lor2_bit _ hlt
  · exact andnot2_bit _ hlt

theorem RSTDivideByZero_SetRSTDivideByZero (m : Mem) (b : Bool) :
    RSTDivideByZero (SetRSTDivideByZero m b) = b := by
  unfold RSTDivideByZero SetRSTDivideByZero rstGet rstPut memSet
  have hlt : m RST % 256 < 256 := Nat.mod_lt _ (by norm_num)
  by_cases hb : b <;> simp [hb]
  · exact lor4_bit _ hlt
  · exact andnot4_bit _ hlt

/-! ## Claim C1 — scenario S1 end to end -/

/-- C1 counterexample: assembling `:main { mov r0, 1+2*3  halt }` with
`assembler.encode` and executing it with this decoder generation leaves
`mem16[R0] = 0`, not 7: the claim's expected outcome does not hold. -/
theorem c1_counterexample :
    s1Result = some (0, false) ∧ s1Result ≠ some (7, false) := by
  constructor
  · rfl
  · decide

/-- C1 amended: the evaluator does reduce `1+2*3` to `7` and the encoder emits
it as the three-byte operand `40 00 07` (mode 1 for an unprefixed literal), but
this decoder generation treats mode 1 as memory-indirect, so `MOV` stores the
byte read at address 7 — zero — and execution until `HALT` leaves
`mem16[R0] = 0` with `RST.overflow = false`. -/
theorem c1_amended :
    evalExpression s1Resolver s1Expr = .ok (.list .expression [.value .num "7"]) ∧
    s1Program = .ok [2, 128, 64, 0, 7, 1] ∧
    s1Result = some (0, false) := by
  refine ⟨rfl, rfl, rfl⟩

/-! ## Claim C2 — interrupt delivery -/

/-- C2 counterexample: a message enqueued while `RIA = 1` is still delivered by
the queue check of the next step after `RIA` has been cleared to 0 — the pop in
`checkIntQueue` is unconditional (there is no in-handler state to consult
either), so delivery is not restricted to steps with `RIA ≠ 0`. -/
theorem c2_counterexample :
    c2Enqueued.intQueue = [5] ∧
    U16 c2RiaCleared.mem RIA = 0 ∧
    c2Delivered.intQueue = [] ∧
    U16 c2Delivered.mem R0 = 5 ∧
    U16 c2Delivered.mem RIP = 0 := by
  refine ⟨by decide, by decide, by decide, by decide, by decide⟩

/-- The memory `checkIntQueue` produces for a non-empty queue, with the
intermediate push states abstracted. -/
theorem checkIntQueue_cons (cm : Mem) (msg : Int) (rest : List Int) :
    ∃ m3 : Mem, checkIntQueue ⟨cm, msg :: rest⟩ =
      ⟨SetU16 (SetU16 m3 R0 msg) RIP (U16 cm RIA), rest⟩ :=
  ⟨_, rfl⟩

/-- C2 amended: `checkIntQueue` delivers the head message of a non-empty queue
unconditionally — it is removed from the queue (so it is delivered at most
once), `R0` receives the message and `RIP` the current `RIA` value, with no
check of `RIA` and no in-handler state; the `RIA ≠ 0` gate exists only at
enqueue time in `queueInterrupt`, which also drops messages once the queue
holds `IntQueueCapacity` entries. -/
theorem c2_amended (c : QCpu) (msg : Int) (rest : List Int) :
    (c.intQueue = [] → checkIntQueue c = c) ∧
    (c.intQueue = msg :: rest →
       (checkIntQueue c).intQueue = rest ∧
       U16 (checkIntQueue c).mem R0 = msg % 65536 ∧
       U16 (checkIntQueue c).mem RIP = U16 c.mem RIA) ∧
    (U16 c.mem RIA = 0 → queueInterrupt c msg = c) ∧
    (U16 c.mem RIA ≠ 0 → c.intQueue.length < IntQueueCapacity →
       (queueInterrupt c msg).intQueue = c.intQueue ++ [msg] ∧
       (queueInterrupt c msg).mem = c.mem) := by
  obtain ⟨cm, cq⟩ := c
  refine ⟨?_, ?_, ?_, ?_⟩
  · intro h
    simp only at h
    subst h
    rfl
  · intro h
    simp only at h
    subst h
    obtain ⟨m3, hm⟩ := checkIntQueue_cons cm msg rest
    rw [hm]
    refine ⟨rfl, ?_, ?_⟩
    · show U16 (SetU16 (SetU16 m3 R0 msg) RIP (U16 cm RIA)) R0 = msg % 65536
      rw [U16_SetU16_other _ RIP _ R0 (by decide) (by decide) (by decide) (by decide),
          U16_SetU16_same]
    · show U16 (SetU16 (SetU16 m3 R0 msg) RIP (U16 cm RIA)) RIP = U16 cm RIA
      rw [U16_SetU16_same]
      have hb := U16_nonneg_lt cm RIA
      omega
  · intro h
    simp only [queueInterrupt]
    rw [if_pos h]
  · intro h hlen
    simp only [queueInterrupt]
    rw [if_neg h, if_pos hlen]
    exact ⟨rfl, rfl⟩

/-- C2 witness: the amended behaviour at a concrete machine — delivery of
message 9 from the state with `RIA = 1`, and enqueue gating at both sides. -/
theorem c2_amended_witness :
    (checkIntQueue { mem := c2Start.mem, intQueue := [9] }).intQueue = [] ∧
    U16 (checkIntQueue { mem := c2Start.mem, intQueue := [9] }).mem R0 = 9 % 65536 ∧
    U16 (checkIntQueue { mem := c2Start.mem, intQueue := [9] }).mem RIP =
      U16 c2Start.mem RIA ∧
    (queueInterrupt { mem := c2Start.mem, intQueue := [9] } 4).intQueue = [9] ++ [4] := by
  have h := c2_amended { mem := c2Start.mem, intQueue := [9] } 9 []
  refine ⟨(h.2.1 rfl).1, (h.2.1 rfl).2.1, (h.2.1 rfl).2.2, ?_⟩
  have h4 := c2_amended { mem := c2Start.mem, intQueue := [9] } 4 []
  exact (h4.2.2.2 (by decide) (by decide)).1

/-! ## Claim C3 — overflow flag range -/

/-- C3: executing `ADD` with a u16-typed destination (wide, unsigned) and
sources `0x4000 + 0x4000 = 0x8000` sets `RST.overflow` — the dispatch uses the
fixed check `v < -0x7fff || v > 0x7fff` for every destination type — although
32768 lies inside the u16 range `[0, 65535]`, so the claimed typed-range
condition says the flag must stay clear.  (The typed behaviour is what the
package's own `TestADD8Overflow` and the `Type.Limits` generation of the
dispatch implement.) -/
theorem c3_fixed_range_flag :
    c3ExecMem.map RSTOverflow = some true ∧
    specTypedOverflow 1 (16384 + 16384) = false ∧
    c3ExecMem.map (fun m => U16 m R0) = some 32768 := by
  refine ⟨by decide, by decide, by decide⟩

/-! ## Claim C4 — DIV/MOD divide-by-zero handling -/

/-- C4: for a decoded `DIV` or `MOD`: a zero divisor sets the divide-by-zero
flag and leaves every byte but the RST register untouched (no write to the
destination); a non-zero divisor clears the flag and stores the quotient
(resp. remainder) at the destination address. -/
theorem c4_div_mod (rng : Nat → Nat) (pw : Int → Int → Int) (devs : List Dev)
    (i : Instr) (m : Mem)
    (hop : i.Opcode = DIV ∨ i.Opcode = MOD)
    (haddr : 0 ≤ i.arg0.Address ∧ i.arg0.Address + 1 < (MemoryCapacity : Int))
    (hrst : i.arg0.Address.toNat ≠ RST ∧ i.arg0.Address.toNat + 1 ≠ RST) :
    (i.arg2.Value = 0 →
       execInstr rng pw devs i m = .ok (SetRSTDivideByZero m true) ∧
       RSTDivideByZero (SetRSTDivideByZero m true) = true ∧
       ∀ x : Nat, x ≠ RST → SetRSTDivideByZero m true x = m x) ∧
    (i.arg2.Value ≠ 0 →
       ∃ m' : Mem, execInstr rng pw devs i m = .ok m' ∧
         RSTDivideByZero m' = false ∧
         U16 m' i.arg0.Address.toNat =
           (if i.Opcode = DIV then Int.tdiv i.arg1.Value i.arg2.Value
            else Int.tmod i.arg1.Value i.arg2.Value) % 65536) := by
  have hred : execInstr rng pw devs i m =
      (if i.arg2.Value = 0 then Out.ok (SetRSTDivideByZero m true)
       else obind (setU16chk m i.arg0.Address
               (if i.Opcode = DIV then Int.tdiv i.arg1.Value i.arg2.Value
                else Int.tmod i.arg1.Value i.arg2.Value))
              (fun m1 => .ok (SetRSTDivideByZero m1 false)) id) := by
    rcases hop with h | h <;>
      simp [execInstr, h, MOV, PUSH, POP, RNG, SEED, ADD, SUB, MUL, DIV, MOD]
  constructor
  · intro hz
    rw [hred, if_pos hz]
    exact ⟨rfl, RSTDivideByZero_SetRSTDivideByZero m true,
           fun x hx => rstPut_other m 4 true x hx⟩
  · intro hnz
    rw [hred, if_neg hnz]
    unfold setU16chk
    rw [if_pos haddr]
    refine ⟨_, rfl, RSTDivideByZero_SetRSTDivideByZero _ false, ?_⟩
    unfold SetRSTDivideByZero
    rw [U16_rstPut _ 4 false _ hrst.1 hrst.2, U16_SetU16_same]

/-- C4 witness: the theorem applied to `DIV r0, 9, 0` on a fresh machine. -/
theorem c4_div_mod_witness :
    execInstr rng0 pw0 [] c4Div0 (startupMem [] 0) =
      .ok (SetRSTDivideByZero (startupMem [] 0) true) :=
  ((c4_div_mod rng0 pw0 [] c4Div0 (startupMem [] 0) (Or.inl rfl)
      (by decide) (by decide)).1 rfl).1

/-! ## Claim C5 — PUSH semantics -/

/-- C5 counterexample: after `PUSH 5` from a fresh machine (`RSP = 0xfffe`,
memory zero), the 16-bit value at the updated `RSP` (0xfffc) is 0, not 5 — the
value was stored at the pre-instruction `RSP`, which the updated `RSP + 2`
addresses. -/
theorem c5_counterexample :
    c5ExecMem.map (fun m => U16 m (U16 m RSP).toNat) = some 0 ∧
    c5ExecMem.map (fun m => U16 m (U16 m RSP).toNat) ≠ some 5 ∧
    c5ExecMem.map (fun m => (U16 m RSP, U16 m ((U16 m RSP).toNat + 2))) =
      some (65532, 5) := by
  refine ⟨by decide, by decide, by decide⟩

/-- C5 amended: `PUSH v` stores `v` as a 16-bit value at the address held in
`RSP` before the instruction and decrements `RSP` by 2 (mod 2^16); that is,
after the instruction `mem16[old RSP] = v`, which the updated `RSP + 2`
addresses whenever `RSP` does not wrap. -/
theorem c5_amended (rng : Nat → Nat) (pw : Int → Int → Int) (devs : List Dev)
    (i : Instr) (m : Mem) (hop : i.Opcode = PUSH) :
    ∃ m' : Mem, execInstr rng pw devs i m = .ok m' ∧
      U16 m' (U16 m RSP).toNat = i.arg0.Value % 65536 ∧
      U16 m' RSP = (U16 m RSP - 2) % 65536 := by
  have hb := U16_nonneg_lt m RSP
  have hRSP : RSP = 65544 := rfl
  have hMC : MemoryCapacity = 65552 := rfl
  have hne : (U16 m RSP).toNat < 65536 := by omega
  have hred : execInstr rng pw devs i m =
      setU16chk (SetU16 m RSP (U16 m RSP - 2)) (U16 m RSP) i.arg0.Value := by
    simp [execInstr, hop, MOV, PUSH]
  rw [hred]
  unfold setU16chk
  rw [if_pos (show 0 ≤ U16 m RSP ∧ U16 m RSP + 1 < (MemoryCapacity : Int) by omega)]
  refine ⟨_, rfl, ?_, ?_⟩
  · exact U16_SetU16_same _ _ _
  · rw [U16_SetU16_other, U16_SetU16_same] <;> omega

/-- C5 witness: the amended statement at `PUSH 5` on a fresh machine. -/
theorem c5_amended_witness :
    ∃ m' : Mem, execInstr rng0 pw0 [] c5Instr (startupMem [] 0) = .ok m' ∧
      U16 m' (U16 (startupMem [] 0) RSP).toNat = 5 % 65536 ∧
      U16 m' RSP = (U16 (startupMem [] 0) RSP - 2) % 65536 :=
  c5_amended rng0 pw0 [] c5Instr (startupMem [] 0) rfl

/-! ## Claim C10 — RNG with an empty range -/

/-- C10: a decoded `RNG` whose two range operands coincide after unsigned 16-bit
conversion takes neither the overflow branch (`hi - lo < 0` fails) nor a normal
write: the dispatch reaches `rand.Intn(0)`, which panics — the step function is
not total on this input (no write, no flag raised, no error value returned). -/
theorem c10_rng_empty_range (rng : Nat → Nat) (pw : Int → Int → Int)
    (devs : List Dev) (i : Instr) (m : Mem)
    (hop : i.Opcode = RNG)
    (heq : goUint16 i.arg1.Value = goUint16 i.arg2.Value) :
    execInstr rng pw devs i m = .panicked := by
  have h0 : goUint16 i.arg2.Value - goUint16 i.arg1.Value = 0 := by omega
  simp [execInstr, hop, MOV, PUSH, POP, RNG, h0]

/-- C10 witness: `RNG r0, 7, 7` panics on a fresh machine. -/
theorem c10_rng_empty_range_witness :
    execInstr rng0 pw0 [] c10Instr memZero = .panicked :=
  c10_rng_empty_range rng0 pw0 [] c10Instr memZero rfl rfl

/-! ## Claim C6 — comparison results in the expression evaluator -/

/-- C6: `==` applied to two identical values takes `eq`'s short path and pushes
the raw Go boolean `true`, not the canonical integer `-1`; a terminal result of
that kind is then rejected by the reduction as an invalid expression type.
`!=` is not implemented by `apply` at all. -/
theorem c6_eq_pushes_bool :
    applyOp "==" (.int 5) (.int 5) = .ok (.bool true) ∧
    (Except.ok (EV.bool true) : Except String EV) ≠ .ok (.int (goBool true)) ∧
    applyOp "==" (.int 5) (.int 4) = .ok (.int 0) ∧
    evalRPN (tableResolver []) [.value .num "5", .value .num "5", .value .operator "=="] =
      .error "expression evaluates to invalid type bool" ∧
    applyOp "!=" (.int 5) (.int 4) = .error "unrecognized operation !=" := by
  refine ⟨rfl, ?_, rfl, rfl, rfl⟩
  intro h
  injection h with h'
  exact absurd h' (by decide)

/-! ## Claim C7 — swallowing undefined-reference errors -/

/-- C7: the resolver reports a missing symbol as `reference to unresolved
value …`, but the `Evaluate` wrapper only swallows errors containing the text
`reference to undefined value`; the two never match, so the error propagates
and the pass aborts instead of continuing. -/
theorem c7_swallow_never_fires :
    containsSub swallowPattern.data (resolveErrMsg "foo").data = false ∧
    containsSub "reference to unresolved value".data (resolveErrMsg "foo").data = true ∧
    Evaluate (tableResolver []) c7Instr = .error (resolveErrMsg "foo") := by
  refine ⟨by decide, by decide, rfl⟩

/-! ## Claim C8 — encoded_len versus emitted bytes -/

/-- C8: for the data directive `d8 "ab"` the label-resolution pass accounts
`encodedLen = 1` byte — each operand expression counts as one element,
whatever its string holds — while the encoder emits the two code points
`[97, 98]`, i.e. 2 bytes. -/
theorem c8_string_directive_mismatch :
    encodedLen d8abNode 0 = 1 ∧
    encodeDataDirective d8abNode 1 = [97, 98] ∧
    ((encodeDataDirective d8abNode 1).length : Int) ≠ encodedLen d8abNode 0 := by
  refine ⟨by decide, rfl, by decide⟩

/-! ## Claim C9 — archive round trip -/

/-- C9 counterexample: `c9Bad` satisfies every bound the claim states (no
files, one debug symbol, no instruction bytes), yet `load (save c9Bad)`
returns an archive whose symbol address has been truncated from 65536 to 0 —
the round trip is not the identity under the claim's hypotheses alone. -/
theorem c9_counterexample :
    c9Bad.Files = [] ∧
    c9Bad.Symbols.length < 65536 ∧
    c9Bad.Instructions.length < 65536 ∧
    loadArchive (saveArchive c9Bad) =
      .ok { Files := [],
            Symbols := [{ Address := 0, File := 0, Line := 0, Col := 0,
                          Offset := 0, Flags := 0 }],
            Instructions := [] } ∧
    loadArchive (saveArchive c9Bad) ≠ .ok c9Bad := by
  refine ⟨rfl, by decide, by decide, rfl, ?_⟩
  intro h
  rw [show loadArchive (saveArchive c9Bad) =
        .ok { Files := [],
              Symbols := [{ Address := 0, File := 0, Line := 0, Col := 0,
                            Offset := 0, Flags := 0 }],
              Instructions := [] } from rfl] at h
  injection h with h'
  have : (65536 : Int) = 0 := congrArg (fun a => ((a.Symbols.headD
    { Address := 0, File := 0, Line := 0, Col := 0, Offset := 0, Flags := 0 }).Address)) h' |>.symm
  exact absurd this (by decide)


theorem readU8A_write (v : Int) (h : 0 ≤ v ∧ v < 256) (rest : List Nat) :
    readU8A (writeU8A v ++ rest) = some (v, rest) := by
  simp only [readU8A, writeU8A, goByte, List.cons_append, List.nil_append]
  exact congrArg (fun x => some (x, rest)) (by omega)

theorem readU16A_write (v : Int) (h : 0 ≤ v ∧ v < 65536) (rest : List Nat) :
    readU16A (writeU16A v ++ rest) = some (v, rest) := by
  simp only [readU16A, writeU16A, goByte, List.cons_append, List.nil_append]
  exact congrArg (fun x => some (x, rest)) (by omega)

theorem readU32A_write (v : Int) (h : 0 ≤ v ∧ v < 4294967296) (rest : List Nat) :
    readU32A (writeU32A v ++ rest) = some (v, rest) := by
  simp only [readU32A, writeU32A, goByte, List.cons_append, List.nil_append]
  exact congrArg (fun x => some (x, rest)) (by omega)

theorem readBytesA_write (p : List Nat) (h : p.length < 65536) (rest : List Nat) :
    readBytesA (writeBytesA p ++ rest) = some (p, rest) := by
  unfold readBytesA writeBytesA
  rw [List.append_assoc, readU16A_write (p.length : Int) (by omega) (p ++ rest)]
  dsimp only
  rw [if_neg (by simp [List.length_append])]
  rw [show ((p.length : Int)).toNat = p.length from Int.toNat_natCast _]
  simp [List.take_left, List.drop_left]

theorem readDebugData_write (d : DebugData) (h : wfSymbol d) (rest : List Nat) :
    readDebugData (writeDebugData d ++ rest) = some (d, rest) := by
  obtain ⟨h1, h2, h3, h4, h5, h6, h7, h8, h9, h10, h11, h12⟩ := h
  unfold readDebugData writeDebugData
  rw [List.append_assoc, List.append_assoc, List.append_assoc, List.append_assoc,
      List.append_assoc]
  rw [readU16A_write d.Address ⟨h1, h2⟩]
  dsimp only
  rw [readU8A_write d.File ⟨h3, h4⟩]
  dsimp only
  rw [readU16A_write d.Line ⟨h5, h6⟩]
  dsimp only
  rw [readU16A_write d.Col ⟨h7, h8⟩]
  dsimp only
  rw [readU32A_write d.Offset ⟨h9, h10⟩]
  dsimp only
  rw [readU8A_write d.Flags ⟨h11, h12⟩]

theorem readFilesA_write (files : List (List Nat)) (h : ∀ f ∈ files, f.length < 65536)
    (rest : List Nat) :
    readFilesA files.length (writeFilesA files ++ rest) = some (files, rest) := by
  induction files generalizing rest with
  | nil => rfl
  | cons f fs ih =>
    simp only [writeFilesA, List.length_cons, readFilesA, List.append_assoc]
    rw [readBytesA_write f (h f (by simp)) (writeFilesA fs ++ rest)]
    dsimp only
    rw [ih (fun g hg => h g (by simp [hg])) rest]

theorem readSymbolsA_write (syms : List DebugData) (h : ∀ d ∈ syms, wfSymbol d)
    (rest : List Nat) :
    readSymbolsA syms.length (writeSymbolsA syms ++ rest) = some (syms, rest) := by
  induction syms generalizing rest with
  | nil => rfl
  | cons d ds ih =>
    simp only [writeSymbolsA, List.length_cons, readSymbolsA, List.append_assoc]
    rw [readDebugData_write d (h d (by simp)) (writeSymbolsA ds ++ rest)]
    dsimp only
    rw [ih (fun e he => h e (by simp [he])) rest]

theorem loadArchive_wrap (payload : List Nat) :
    loadArchive (31 :: 139 :: payload) =
      (match readDebug payload with
       | none => .error "ar"
       | some ((files, syms), s1) =>
         match readBytesA s1 with
         | none => .error "ar"
         | some (instrs, _) =>
           .ok { Files := files, Symbols := syms, Instructions := instrs }) := rfl

/-- C9 amended: the save/load round trip is the identity for archives whose
counts fit the claim's bounds and whose per-symbol fields additionally fit the
widths the format serialises them at (u16 address/line/col, u8 file index and
flags, u32 offset); and a stream without the gzip magic fails to load with the
`invalid archive format` error. -/
theorem c9_amended (a : ArchiveA) (h : wfArchive a) :
    loadArchive (saveArchive a) = .ok a ∧
    (∀ s : List Nat, isGzipStream s = false →
       loadArchive s = .error "ar: invalid archive format") := by
  constructor
  · obtain ⟨files, syms, instrs⟩ := a
    obtain ⟨hf, hfl, hs, hsw, hi⟩ := h
    simp only at hf hfl hs hsw hi
    rw [show saveArchive ⟨files, syms, instrs⟩ =
          31 :: 139 :: (writeDebug files syms ++ writeBytesA instrs) from rfl,
        loadArchive_wrap]
    unfold readDebug writeDebug
    rw [List.append_assoc, List.append_assoc, List.append_assoc]
    rw [readU8A_write (files.length : Int) (by omega) _]
    dsimp only
    rw [show ((files.length : Int)).toNat = files.length from Int.toNat_natCast _]
    rw [readFilesA_write files hfl _]
    dsimp only
    rw [readU16A_write (syms.length : Int) (by omega) _]
    dsimp only
    rw [show ((syms.length : Int)).toNat = syms.length from Int.toNat_natCast _]
    rw [readSymbolsA_write syms hsw _]
    dsimp only
    rw [show writeBytesA instrs = writeBytesA instrs ++ [] by simp]
    rw [readBytesA_write instrs hi []]
  · intro s hs
    unfold loadArchive
    split
    · rename_i payload
      rw [show isGzipStream (31 :: 139 :: payload) = true from rfl] at hs
      cases hs
    · rfl

/-- C9 witness: the amended round trip at a concrete archive with one source
file, one debug record and two instruction bytes, plus the failure on a
magic-less stream. -/
theorem c9_amended_witness :
    loadArchive (saveArchive c9Good) = .ok c9Good ∧
    loadArchive [0, 1, 2] = .error "ar: invalid archive format" :=
  ⟨(c9_amended c9Good (by decide)).1,
   (c9_amended c9Good (by decide)).2 [0, 1, 2] (by decide)⟩
